import Mathlib

/-!
Shallow embedding of `packages/hydrogen/src/analytics-manager/AnalyticsProvider.tsx`:
the analytics dispatcher (subscribe / publish / register / ready) with its
readiness gate and pending-event queue, plus the context-consuming hook
`useAnalyticsProvider`.

Modelling conventions:
* A JS `Map` and a JS plain-object record are both modelled as insertion-ordered
  association lists `List (String × β)`.  `Map.set` / property assignment update
  the value in place when the key exists (keeping its position) and append
  otherwise; `forEach` and `Object.keys` iterate in list order.
* Event types and registration keys are strings; payloads are opaque to the
  dispatcher, modelled as `Nat`.
* A subscriber callback is modelled by its stringified source (`src`, the value
  of `callback.toString()` used as the map key) together with its behaviour when
  invoked: `throws = some msg` means the call throws an `Error` with that
  message, `throws = none` means it returns normally.
* Invocations and caught-and-logged errors are recorded in an event log
  (`List LogEntry`); `publishEvent` is a total function into that log, which
  embeds the fact that the try/catch in the source never lets a subscriber
  error escape to the caller.
-/

namespace Hydrogen

abbrev EventType := String
abbrev Payload := Nat
abbrev RegKey := String

/-- A subscriber callback: its stringified source text (the key used by
`subscribe`) and whether invoking it throws. -/
structure Callback where
  src : String
  throws : Option String
deriving DecidableEq

/-- JS `Map.set` / record assignment on an insertion-ordered association list:
replace the value of an existing key in place, otherwise append at the end. -/
def mapSet {β : Type} (m : List (String × β)) (k : String) (v : β) :
    List (String × β) :=
  if m.any (fun p => p.1 == k) then
    m.map (fun p => if p.1 == k then (k, v) else p)
  else
    m ++ [(k, v)]

/-- JS `Map.get` / record lookup: first entry with the key, if any. -/
def mapGet {β : Type} (m : List (String × β)) (k : String) : Option β :=
  (m.find? (fun p => p.1 == k)).map (fun p => p.2)

/-- The module-scope mutable state of the dispatcher:
`subscribers`, `registers` and `waitForReadyQueue` from the source. -/
structure DispatcherState where
  subscribers : List (EventType × List (String × Callback))
  registers : List (RegKey × Bool)
  waitForReadyQueue : List (EventType × Payload)
deriving DecidableEq

/-- `areRegistersReady`: starts with `ready = true` and walks every key of the
registry, clearing `ready` whenever a flag is false. -/
def areRegistersReady (registers : List (RegKey × Bool)) : Bool :=
  registers.foldl (fun ready kv => if !kv.2 then false else ready) true

/-- `subscribe(event, callback)`: create the inner map for `event` when absent,
then set the callback under the key `callback.toString()`. -/
def subscribe (s : DispatcherState) (event : EventType) (cb : Callback) :
    DispatcherState :=
  let subs :=
    if !(s.subscribers.any (fun p => p.1 == event)) then
      mapSet s.subscribers event []
    else
      s.subscribers
  let inner := (mapGet subs event).getD []
  { s with subscribers := mapSet subs event (mapSet inner cb.src cb) }

/-- The subscriber entries currently registered for an event type, in
insertion order (`subscribers.get(event) ?? new Map()`). -/
def subscribersOf (s : DispatcherState) (event : EventType) :
    List (String × Callback) :=
  (mapGet s.subscribers event).getD []

/-- Observable effects of running the dispatcher: a subscriber callback being
called with a payload, and a caught error being logged via `console.error`. -/
inductive LogEntry where
  | invoked (event : EventType) (cbSrc : String) (payload : Payload)
  | errorLogged (msg : String)
deriving DecidableEq

/-- Raw behaviour of calling a callback: it either returns or throws. -/
def runCallback (cb : Callback) (_payload : Payload) : Except String Unit :=
  match cb.throws with
  | some msg => Except.error msg
  | none => Except.ok ()

/-- One iteration of the `forEach` body of `publishEvent`: call the callback
inside try/catch; a thrown error is caught and logged, never re-thrown. -/
def invokeWithCatch (event : EventType) (cb : Callback) (payload : Payload) :
    List LogEntry :=
  match runCallback cb payload with
  | Except.ok _ => [LogEntry.invoked event cb.src payload]
  | Except.error msg =>
      [LogEntry.invoked event cb.src payload, LogEntry.errorLogged msg]

/-- `publishEvent(event, payload)`: iterate the current subscribers of the
event in insertion order, invoking each inside try/catch.  Totality of this
function is the image of the source function always returning normally. -/
def publishEvent (s : DispatcherState) (event : EventType) (payload : Payload) :
    List LogEntry :=
  (subscribersOf s event).flatMap (fun p => invokeWithCatch event p.2 payload)

/-- `publish(event, payload)`: when the gate is not ready, store the payload in
`waitForReadyQueue` (overwriting any pending payload for that event type) and
return without invoking anyone; otherwise deliver synchronously. -/
def publish (s : DispatcherState) (event : EventType) (payload : Payload) :
    DispatcherState × List LogEntry :=
  if !(areRegistersReady s.registers) then
    ({ s with waitForReadyQueue := mapSet s.waitForReadyQueue event payload },
     [])
  else
    (s, publishEvent s event payload)

/-- The value captured by the `ready` closure returned from `register`:
just the registration key. -/
structure ReadyHandle where
  key : RegKey
deriving DecidableEq

/-- `register(key)`: add `key` with flag `false` unless the registry already
has an own property `key`; return a fresh `ready` closure over `key`. -/
def register (s : DispatcherState) (key : RegKey) :
    DispatcherState × ReadyHandle :=
  (if s.registers.any (fun p => p.1 == key) then s
   else { s with registers := s.registers ++ [(key, false)] },
   ⟨key⟩)

/-- The `ready` closure: set the key flag to true; when every registered flag
is now true and the queue is non-empty, publish every queued entry in queue
order and then clear the queue. -/
def ready (s : DispatcherState) (h : ReadyHandle) :
    DispatcherState × List LogEntry :=
  let registers := mapSet s.registers h.key true
  let s1 : DispatcherState := { s with registers := registers }
  if areRegistersReady registers && decide (0 < s1.waitForReadyQueue.length) then
    ({ s1 with waitForReadyQueue := [] },
     s1.waitForReadyQueue.flatMap (fun q => publishEvent s1 q.1 q.2))
  else
    (s1, [])

/-- The fields of the context value that are plain data in the source
(`canTrack` is modelled by the boolean it returns; the function-valued fields
are the module-scope functions above and carry no per-value state). -/
structure AnalyticsContextValue where
  canTrackResult : Bool
  cart : Option Nat
  prevCart : Option Nat
  shop : Option Nat
deriving DecidableEq

/-- `defaultAnalyticsContext`: the non-null default object passed to
`createContext` (canTrack returns false, cart/prevCart/shop are null). -/
def defaultAnalyticsContext : AnalyticsContextValue :=
  { canTrackResult := false, cart := none, prevCart := none, shop := none }

/-- `useContext(AnalyticsContext)`: the provided value inside the provider
subtree, and otherwise the default value given to `createContext`.  `none`
models the JS values null/undefined. -/
def useContextValue (provided : Option AnalyticsContextValue) :
    Option AnalyticsContextValue :=
  match provided with
  | some v => some v
  | none => some defaultAnalyticsContext

/-- `useAnalyticsProvider()`: read the context and throw when the value is
falsy (`!analyticsContext`), otherwise return it. -/
def useAnalyticsProvider (provided : Option AnalyticsContextValue) :
    Except String AnalyticsContextValue :=
  match useContextValue provided with
  | none =>
      Except.error "useAnalyticsProvider() must be a descendent of AnalyticsProvider"
  | some ctx => Except.ok ctx

/-! ### Concrete callbacks and dispatcher states used for evaluation -/

def cbA : Callback := { src := "cbA", throws := none }

def cbB : Callback := { src := "cbB", throws := none }

def cbT : Callback := { src := "cbT", throws := some "boom" }

/-- Same stringified source as `cbA` but different behaviour: the kind of
structurally different closure that collides under source-text keying. -/
def cbA2 : Callback := { src := "cbA", throws := some "alt" }

def sampleGateClosed : DispatcherState :=
  { subscribers := [("e", [("cbA", cbA)])],
    registers := [("k", false)],
    waitForReadyQueue := [] }

def sampleGateOpen : DispatcherState :=
  { subscribers := [("e", [("cbT", cbT), ("cbA", cbA)])],
    registers := [("k", true)],
    waitForReadyQueue := [] }

def sampleNoRegs : DispatcherState :=
  { subscribers := [("e", [("cbA", cbA)])],
    registers := [],
    waitForReadyQueue := [] }

def sampleQueued : DispatcherState :=
  { subscribers := [("e1", [("cbA", cbA)]), ("e2", [("cbB", cbB)])],
    registers := [("k", false)],
    waitForReadyQueue := [("e1", 1), ("e2", 2)] }

def sampleOrphan : DispatcherState :=
  { subscribers := [],
    registers := [("k", false)],
    waitForReadyQueue := [("e", 3)] }

/-! ### Basic lemmas about the ordered-map model -/

theorem areRegistersReady_foldl (b : Bool) (l : List (RegKey × Bool)) :
    l.foldl (fun ready kv => if !kv.2 then false else ready) b
      = (b && l.all (fun p => p.2)) := by
  induction l generalizing b with
  | nil => simp
  | cons hd tl ih =>
    rw [List.foldl_cons, ih, List.all_cons]
    cases h : hd.2 <;> simp [h]

/-- The full-scan readiness check is equivalent to: every registered flag is
true (vacuously true on an empty registry). -/
theorem areRegistersReady_eq_all (l : List (RegKey × Bool)) :
    areRegistersReady l = l.all (fun p => p.2) := by
  unfold areRegistersReady
  rw [areRegistersReady_foldl]
  simp

theorem find?_map_replace {β : Type} (m : List (String × β)) (k : String)
    (v : β) (h : m.any (fun p => p.1 == k) = true) :
    (m.map (fun p => if p.1 == k then (k, v) else p)).find?
        (fun p => p.1 == k) = some (k, v) := by
  induction m with
  | nil => simp at h
  | cons hd tl ih =>
    rw [List.map_cons]
    by_cases hp : (hd.1 == k) = true
    · rw [if_pos hp, List.find?_cons_of_pos]
      simp
    · rw [if_neg hp,
        List.find?_cons_of_neg (p := fun q : String × β => q.1 == k) _ hp]
      apply ih
      simpa [hp] using h

theorem mapGet_mapSet_self {β : Type} (m : List (String × β)) (k : String)
    (v : β) : mapGet (mapSet m k v) k = some v := by
  unfold mapGet mapSet
  by_cases h : m.any (fun p => p.1 == k) = true
  · rw [if_pos h, find?_map_replace m k v h]
    rfl
  · rw [if_neg h, List.find?_append]
    have hm : m.find? (fun p => p.1 == k) = none :=
      List.find?_eq_none.mpr (fun p hp hk => h (List.any_eq_true.mpr ⟨p, hp, hk⟩))
    rw [hm]
    simp

theorem mapSet_keys_of_mem {β : Type} (m : List (String × β)) (k : String)
    (v : β) (h : m.any (fun p => p.1 == k) = true) :
    (mapSet m k v).map (fun p => p.1) = m.map (fun p => p.1) := by
  unfold mapSet
  rw [if_pos h, List.map_map]
  apply List.map_congr_left
  intro p _
  by_cases hp : p.1 = k
  · simp [hp]
  · simp [hp]

theorem mapSet_keys_of_not_mem {β : Type} (m : List (String × β)) (k : String)
    (v : β) (h : m.any (fun p => p.1 == k) = false) :
    (mapSet m k v).map (fun p => p.1) = m.map (fun p => p.1) ++ [k] := by
  unfold mapSet
  simp [h]

theorem mem_mapSet_key {β : Type} (m : List (String × β)) (k : String) (v : β)
    (q : String × β) (hq : q ∈ mapSet m k v) (hk : q.1 = k) : q = (k, v) := by
  unfold mapSet at hq
  by_cases h : m.any (fun p => p.1 == k) = true
  · rw [if_pos h] at hq
    obtain ⟨p, -, hpq⟩ := List.mem_map.mp hq
    by_cases hp : (p.1 == k) = true
    · simpa [hp] using hpq.symm
    · rw [if_neg hp] at hpq
      subst hpq
      exact absurd (by simp [hk]) hp
  · rw [if_neg h] at hq
    rcases List.mem_append.mp hq with hm | hl
    · exact absurd (List.any_eq_true.mpr ⟨q, hm, by simp [hk]⟩) h
    · simpa using hl

theorem mapSet_self_mem {β : Type} (m : List (String × β)) (k : String)
    (v : β) : (k, v) ∈ mapSet m k v := by
  unfold mapSet
  by_cases h : m.any (fun p => p.1 == k) = true
  · rw [if_pos h]
    obtain ⟨p, hp, hpk⟩ := List.any_eq_true.mp h
    exact List.mem_map.mpr ⟨p, hp, by simp [hpk]⟩
  · rw [if_neg h]
    simp

/-! ### Lemmas about the dispatcher operations -/

theorem publish_not_ready (s : DispatcherState) (E : EventType) (P : Payload)
    (h : areRegistersReady s.registers = false) :
    publish s E P =
      ({ s with waitForReadyQueue := mapSet s.waitForReadyQueue E P }, []) := by
  simp [publish, h]

theorem publish_ready (s : DispatcherState) (E : EventType) (P : Payload)
    (h : areRegistersReady s.registers = true) :
    publish s E P = (s, publishEvent s E P) := by
  simp [publish, h]

theorem ready_registers (s : DispatcherState) (k : RegKey) :
    (ready s ⟨k⟩).1.registers = mapSet s.registers k true := by
  unfold ready
  by_cases h : (areRegistersReady (mapSet s.registers k true)
      && decide (0 < s.waitForReadyQueue.length)) = true
  · simp [h]
  · simp [h]

theorem ready_subscribers (s : DispatcherState) (k : RegKey) :
    (ready s ⟨k⟩).1.subscribers = s.subscribers := by
  unfold ready
  by_cases h : (areRegistersReady (mapSet s.registers k true)
      && decide (0 < s.waitForReadyQueue.length)) = true
  · simp [h]
  · simp [h]

theorem ready_queue_empty (s : DispatcherState) (k : RegKey)
    (hk : areRegistersReady (mapSet s.registers k true) = true) :
    (ready s ⟨k⟩).1.waitForReadyQueue = [] := by
  unfold ready
  cases hq : s.waitForReadyQueue with
  | nil => simp [hk, hq]
  | cons hd tl => simp [hk, hq]

theorem ready_log (s : DispatcherState) (k : RegKey)
    (hk : areRegistersReady (mapSet s.registers k true) = true) :
    (ready s ⟨k⟩).2 =
      s.waitForReadyQueue.flatMap (fun q => publishEvent s q.1 q.2) := by
  unfold ready
  cases hq : s.waitForReadyQueue with
  | nil => simp [hk, hq]
  | cons hd tl => simp [hk, hq, publishEvent, subscribersOf]

theorem mem_ready_log (s : DispatcherState) (k : RegKey) (a : LogEntry)
    (ha : a ∈ s.waitForReadyQueue.flatMap (fun q => publishEvent s q.1 q.2))
    (hk : areRegistersReady (mapSet s.registers k true) = true) :
    a ∈ (ready s ⟨k⟩).2 := by
  rw [ready_log s k hk]
  exact ha

theorem ready_log_subset (s : DispatcherState) (k : RegKey) (a : LogEntry)
    (ha : a ∈ (ready s ⟨k⟩).2)
    (hk : areRegistersReady (mapSet s.registers k true) = true) :
    a ∈ s.waitForReadyQueue.flatMap (fun q => publishEvent s q.1 q.2) := by
  rw [ready_log s k hk] at ha
  exact ha

theorem invoked_mem_invokeWithCatch (e : EventType) (cb : Callback)
    (p : Payload) :
    LogEntry.invoked e cb.src p ∈ invokeWithCatch e cb p := by
  unfold invokeWithCatch runCallback
  cases cb.throws <;> simp

theorem invoked_mem_publishEvent (s : DispatcherState) (e : EventType)
    (p : Payload) (c : String × Callback) (hc : c ∈ subscribersOf s e) :
    LogEntry.invoked e c.2.src p ∈ publishEvent s e p := by
  unfold publishEvent
  exact List.mem_flatMap.mpr ⟨c, hc, invoked_mem_invokeWithCatch e c.2 p⟩

theorem invoked_of_mem_invokeWithCatch (e e' : EventType) (cb : Callback)
    (p p' : Payload) (c : String)
    (h : LogEntry.invoked e' c p' ∈ invokeWithCatch e cb p) :
    e' = e ∧ p' = p ∧ c = cb.src := by
  cases hcb : cb.throws with
  | none =>
    simp [invokeWithCatch, runCallback, hcb] at h
    exact ⟨h.1, h.2.2, h.2.1⟩
  | some msg =>
    simp [invokeWithCatch, runCallback, hcb] at h
    exact ⟨h.1, h.2.2, h.2.1⟩

theorem invoked_of_mem_publishEvent (s : DispatcherState) (e e' : EventType)
    (p p' : Payload) (c : String)
    (h : LogEntry.invoked e' c p' ∈ publishEvent s e p) :
    e' = e ∧ p' = p := by
  unfold publishEvent at h
  obtain ⟨q, -, hq⟩ := List.mem_flatMap.mp h
  exact ⟨(invoked_of_mem_invokeWithCatch e e' q.2 p p' c hq).1,
    (invoked_of_mem_invokeWithCatch e e' q.2 p p' c hq).2.1⟩

theorem errorLogged_mem_invokeWithCatch (e : EventType) (cb : Callback)
    (p : Payload) (msg : String) (h : cb.throws = some msg) :
    LogEntry.errorLogged msg ∈ invokeWithCatch e cb p := by
  unfold invokeWithCatch runCallback
  rw [h]
  simp

theorem publishEvent_registers_irrel (s : DispatcherState)
    (r : List (RegKey × Bool)) (e : EventType) (p : Payload) :
    publishEvent { s with registers := r } e p = publishEvent s e p := rfl

theorem mapGet_eq_none_of_not_mem {β : Type} (m : List (String × β))
    (k : String) (h : m.any (fun p => p.1 == k) = false) :
    mapGet m k = none := by
  have hne : ∀ p ∈ m, ¬((p.1 == k) = true) := by
    intro p hp hk
    have hmem : m.any (fun p => p.1 == k) = true :=
      List.any_eq_true.mpr ⟨p, hp, hk⟩
    rw [h] at hmem
    exact Bool.false_ne_true hmem
  unfold mapGet
  rw [List.find?_eq_none.mpr hne]
  rfl

theorem filter_key_eq_nil {β : Type} (m : List (String × β)) (k : String)
    (h : m.any (fun p => p.1 == k) = false) :
    m.filter (fun p => p.1 == k) = [] := by
  rw [List.filter_eq_nil_iff]
  intro p hp hk
  have hmem : m.any (fun p => p.1 == k) = true :=
    List.any_eq_true.mpr ⟨p, hp, hk⟩
  rw [h] at hmem
  exact Bool.false_ne_true hmem

theorem mapSet_length_of_mem {β : Type} (m : List (String × β)) (k : String)
    (v : β) (h : m.any (fun p => p.1 == k) = true) :
    (mapSet m k v).length = m.length := by
  unfold mapSet
  rw [if_pos h, List.length_map]

theorem mapSet_keys_nodup {β : Type} (m : List (String × β)) (k : String)
    (v : β) (h : (m.map (fun p => p.1)).Nodup) :
    ((mapSet m k v).map (fun p => p.1)).Nodup := by
  rcases Bool.eq_false_or_eq_true (m.any (fun p => p.1 == k)) with hm | hm
  · rw [mapSet_keys_of_mem m k v hm]
    exact h
  · rw [mapSet_keys_of_not_mem m k v hm]
    rw [List.nodup_append]
    refine ⟨h, List.nodup_singleton k, ?_⟩
    intro a ha hb
    rw [List.mem_singleton] at hb
    obtain ⟨p, hp, hpk⟩ := List.mem_map.mp ha
    have hmem : m.any (fun p => p.1 == k) = true :=
      List.any_eq_true.mpr ⟨p, hp, by simp [hpk, hb]⟩
    rw [hm] at hmem
    exact Bool.false_ne_true hmem

theorem mapSet_cons_of_head_ne {β : Type} (hd : String × β)
    (tl : List (String × β)) (k : String) (v : β)
    (hp : ¬((hd.1 == k) = true)) :
    mapSet (hd :: tl) k v = hd :: mapSet tl k v := by
  have hp' : (hd.1 == k) = false := Bool.eq_false_iff.mpr hp
  unfold mapSet
  rw [List.any_cons, hp', Bool.false_or]
  rcases Bool.eq_false_or_eq_true (tl.any (fun p => p.1 == k)) with hta | hta
  · rw [if_pos hta, if_pos hta, List.map_cons, if_neg hp]
  · rw [if_neg (by simp [hta]), if_neg (by simp [hta]), List.cons_append]

/-- On a map whose keys are distinct, setting a key leaves exactly one entry
for that key, holding the new value. -/
theorem filter_mapSet_self {β : Type} (m : List (String × β)) (k : String)
    (v : β) (hnd : (m.map (fun p => p.1)).Nodup) :
    ((mapSet m k v).filter (fun q => q.1 == k)).map (fun q => q.2) = [v] := by
  induction m with
  | nil => simp [mapSet]
  | cons hd tl ih =>
    rw [List.map_cons, List.nodup_cons] at hnd
    obtain ⟨hhd, htl⟩ := hnd
    by_cases hp : (hd.1 == k) = true
    · have hk : hd.1 = k := eq_of_beq hp
      have htlk : tl.any (fun p => p.1 == k) = false := by
        rw [List.any_eq_false]
        intro p hpmem hpk
        exact hhd (by
          rw [hk, ← eq_of_beq hpk]
          exact List.mem_map_of_mem _ hpmem)
      have hany : (hd :: tl).any (fun p => p.1 == k) = true := by simp [hp]
      unfold mapSet
      rw [if_pos hany, List.map_cons, if_pos hp]
      have htleq : tl.map (fun p => if p.1 == k then (k, v) else p) = tl := by
        conv_rhs => rw [← List.map_id tl]
        apply List.map_congr_left
        intro p hpmem
        have hpk : ¬((p.1 == k) = true) := by
          intro hc
          rw [List.any_eq_false] at htlk
          exact htlk p hpmem hc
        simp [hpk]
      rw [htleq, List.filter_cons_of_pos (by simp), filter_key_eq_nil tl k htlk]
      simp
    · rw [mapSet_cons_of_head_ne hd tl k v hp,
        List.filter_cons_of_neg (p := fun q : String × β => q.1 == k) hp]
      exact ih htl

/-! ### Lemmas about subscribe -/

theorem subscribe_registers (s : DispatcherState) (E : EventType)
    (cb : Callback) : (subscribe s E cb).registers = s.registers := rfl

theorem subscribe_waitForReadyQueue (s : DispatcherState) (E : EventType)
    (cb : Callback) :
    (subscribe s E cb).waitForReadyQueue = s.waitForReadyQueue := rfl

theorem subscribersOf_subscribe_self (s : DispatcherState) (E : EventType)
    (cb : Callback) :
    subscribersOf (subscribe s E cb) E
      = mapSet (subscribersOf s E) cb.src cb := by
  unfold subscribe subscribersOf
  rcases Bool.eq_false_or_eq_true (s.subscribers.any (fun p => p.1 == E)) with
    h | h
  · rw [if_neg (by simp [h])]
    rw [mapGet_mapSet_self]
    rfl
  · rw [if_pos (by simp [h])]
    rw [mapGet_mapSet_self, mapGet_eq_none_of_not_mem s.subscribers E h]
    rw [mapGet_mapSet_self]
    rfl

theorem errorLogged_mem_publishEvent (s : DispatcherState) (e : EventType)
    (p : Payload) (c : String × Callback) (hc : c ∈ subscribersOf s e)
    (msg : String) (hmsg : c.2.throws = some msg) :
    LogEntry.errorLogged msg ∈ publishEvent s e p := by
  unfold publishEvent
  exact List.mem_flatMap.mpr
    ⟨c, hc, errorLogged_mem_invokeWithCatch e c.2 p msg hmsg⟩

/-! ### Claim theorems -/

/-- C2: the spec claims the hook throws when invoked outside the provider
subtree.  The code disagrees: `createContext` receives the non-null object
`defaultAnalyticsContext`, so `useContext` yields that object, the falsiness
guard never fires, and the hook returns the default context normally instead
of throwing. -/
theorem useAnalyticsProvider_outside_returns_default :
    useAnalyticsProvider none = Except.ok defaultAnalyticsContext := rfl

/-- C4: with the gate ready, a throwing subscriber is caught and its message
logged, every subscriber of the event type is still invoked with the payload,
and publish itself returns normally with the state unchanged. -/
theorem publish_error_isolation (s : DispatcherState) (E : EventType)
    (P : Payload) (hready : areRegistersReady s.registers = true) :
    (publish s E P).1 = s ∧
    ∀ c ∈ subscribersOf s E,
      LogEntry.invoked E c.2.src P ∈ (publish s E P).2 ∧
      ∀ m, c.2.throws = some m →
        LogEntry.errorLogged m ∈ (publish s E P).2 := by
  rw [publish_ready s E P hready]
  exact ⟨rfl, fun c hc =>
    ⟨invoked_mem_publishEvent s E P c hc,
     fun m hm => errorLogged_mem_publishEvent s E P c hc m hm⟩⟩

theorem publish_error_isolation_witness :
    areRegistersReady sampleGateOpen.registers = true ∧
    ((publish sampleGateOpen "e" 7).1 = sampleGateOpen ∧
     ∀ c ∈ subscribersOf sampleGateOpen "e",
       LogEntry.invoked "e" c.2.src 7 ∈ (publish sampleGateOpen "e" 7).2 ∧
       ∀ m, c.2.throws = some m →
         LogEntry.errorLogged m ∈ (publish sampleGateOpen "e" 7).2) :=
  ⟨by decide, publish_error_isolation sampleGateOpen "e" 7 (by decide)⟩

/-- C5: registering an already-registered key leaves the state unchanged
(the existing flag is preserved, not reset) and returns a fresh ready closure
over the same key; calling ready() from that closure marks the key ready. -/
theorem register_idempotent (s : DispatcherState) (k : RegKey)
    (h : s.registers.any (fun p => p.1 == k) = true) :
    register s k = (s, ⟨k⟩) ∧
    ∀ s' : DispatcherState,
      mapGet (ready s' (register s k).2).1.registers k = some true := by
  constructor
  · unfold register
    rw [if_pos h]
  · intro s'
    show mapGet (ready s' ⟨k⟩).1.registers k = some true
    rw [ready_registers s' k]
    exact mapGet_mapSet_self _ _ _

theorem register_idempotent_witness :
    sampleGateClosed.registers.any (fun p => p.1 == "k") = true ∧
    (register sampleGateClosed "k" = (sampleGateClosed, ⟨"k"⟩) ∧
     ∀ s' : DispatcherState,
       mapGet (ready s' (register sampleGateClosed "k").2).1.registers "k"
         = some true) :=
  ⟨by decide, register_idempotent sampleGateClosed "k" (by decide)⟩

/-- C6: with an empty registry the gate is vacuously ready, so the very first
publish delivers synchronously to every current subscriber of the event type
and changes no state (in particular nothing is queued). -/
theorem empty_registry_publish_immediate (s : DispatcherState) (E : EventType)
    (P : Payload) (hemp : s.registers = []) :
    areRegistersReady s.registers = true ∧
    publish s E P = (s, publishEvent s E P) ∧
    ∀ c ∈ subscribersOf s E,
      LogEntry.invoked E c.2.src P ∈ (publish s E P).2 := by
  have hready : areRegistersReady s.registers = true := by
    rw [hemp]
    rfl
  refine ⟨hready, publish_ready s E P hready, ?_⟩
  intro c hc
  rw [publish_ready s E P hready]
  exact invoked_mem_publishEvent s E P c hc

theorem empty_registry_publish_immediate_witness :
    sampleNoRegs.registers = [] ∧
    (areRegistersReady sampleNoRegs.registers = true ∧
     publish sampleNoRegs "e" 4 = (sampleNoRegs, publishEvent sampleNoRegs "e" 4) ∧
     ∀ c ∈ subscribersOf sampleNoRegs "e",
       LogEntry.invoked "e" c.2.src 4 ∈ (publish sampleNoRegs "e" 4).2) :=
  ⟨by decide, empty_registry_publish_immediate sampleNoRegs "e" 4 (by decide)⟩

/-- C1: while the gate is not ready, publish stores the payload as the pending
entry for its event type and invokes no subscriber; calling ready() on the
last not-ready key then delivers every pending payload to all current
subscribers of its event type and leaves the pending queue empty. -/
theorem publish_queues_then_ready_flushes (s : DispatcherState)
    (E : EventType) (P : Payload) (k : RegKey)
    (hnot : areRegistersReady s.registers = false)
    (hlast : areRegistersReady (mapSet s.registers k true) = true) :
    (publish s E P).2 = [] ∧
    mapGet (publish s E P).1.waitForReadyQueue E = some P ∧
    (∀ q ∈ (publish s E P).1.waitForReadyQueue,
      ∀ c ∈ subscribersOf (publish s E P).1 q.1,
        LogEntry.invoked q.1 c.2.src q.2 ∈ (ready (publish s E P).1 ⟨k⟩).2) ∧
    (ready (publish s E P).1 ⟨k⟩).1.waitForReadyQueue = [] := by
  have key : ∀ t : DispatcherState, t.registers = s.registers →
      (∀ q ∈ t.waitForReadyQueue, ∀ c ∈ subscribersOf t q.1,
        LogEntry.invoked q.1 c.2.src q.2 ∈ (ready t ⟨k⟩).2) ∧
      (ready t ⟨k⟩).1.waitForReadyQueue = [] := by
    intro t ht
    have hlast' : areRegistersReady (mapSet t.registers k true) = true := by
      rw [ht]
      exact hlast
    refine ⟨?_, ready_queue_empty t k hlast'⟩
    intro q hq c hc
    rw [ready_log t k hlast']
    exact List.mem_flatMap.mpr ⟨q, hq, invoked_mem_publishEvent t q.1 q.2 c hc⟩
  rw [publish_not_ready s E P hnot]
  refine ⟨rfl, mapGet_mapSet_self _ _ _, (key _ ?_).1, (key _ ?_).2⟩ <;> rfl

theorem publish_queues_then_ready_flushes_witness :
    areRegistersReady sampleGateClosed.registers = false ∧
    areRegistersReady (mapSet sampleGateClosed.registers "k" true) = true ∧
    ((publish sampleGateClosed "e" 5).2 = [] ∧
     mapGet (publish sampleGateClosed "e" 5).1.waitForReadyQueue "e" = some 5 ∧
     (∀ q ∈ (publish sampleGateClosed "e" 5).1.waitForReadyQueue,
       ∀ c ∈ subscribersOf (publish sampleGateClosed "e" 5).1 q.1,
         LogEntry.invoked q.1 c.2.src q.2
           ∈ (ready (publish sampleGateClosed "e" 5).1 ⟨"k"⟩).2) ∧
     (ready (publish sampleGateClosed "e" 5).1 ⟨"k"⟩).1.waitForReadyQueue
       = []) :=
  ⟨by decide, by decide,
   publish_queues_then_ready_flushes sampleGateClosed "e" 5 "k"
     (by decide) (by decide)⟩

/-- C3: two not-ready publishes of the same event type leave the second
payload as the sole pending entry for that type; at flush every subscriber of
that type receives exactly the second payload, and no delivery for that type
carries any other payload. -/
theorem publish_twice_overwrites (s : DispatcherState) (E : EventType)
    (P1 P2 : Payload) (k : RegKey)
    (hnot : areRegistersReady s.registers = false)
    (hnd : (s.waitForReadyQueue.map (fun q => q.1)).Nodup)
    (hlast : areRegistersReady (mapSet s.registers k true) = true) :
    (publish s E P1).2 = [] ∧
    (publish (publish s E P1).1 E P2).2 = [] ∧
    (((publish (publish s E P1).1 E P2).1.waitForReadyQueue.filter
        (fun q => q.1 == E)).map (fun q => q.2)) = [P2] ∧
    (∀ c ∈ subscribersOf s E,
      LogEntry.invoked E c.2.src P2
        ∈ (ready (publish (publish s E P1).1 E P2).1 ⟨k⟩).2) ∧
    (∀ c p, LogEntry.invoked E c p
        ∈ (ready (publish (publish s E P1).1 E P2).1 ⟨k⟩).2 → p = P2) := by
  have key : ∀ t : DispatcherState,
      t.registers = s.registers →
      t.subscribers = s.subscribers →
      t.waitForReadyQueue = mapSet s.waitForReadyQueue E P1 →
      (publish t E P2).2 = [] ∧
      (((publish t E P2).1.waitForReadyQueue.filter (fun q => q.1 == E)).map
          (fun q => q.2) = [P2]) ∧
      (∀ c ∈ subscribersOf s E,
        LogEntry.invoked E c.2.src P2 ∈ (ready (publish t E P2).1 ⟨k⟩).2) ∧
      (∀ c p,
        LogEntry.invoked E c p ∈ (ready (publish t E P2).1 ⟨k⟩).2
          → p = P2) := by
    intro t hreg hsubs hqueue
    have hnott : areRegistersReady t.registers = false := by
      rw [hreg]
      exact hnot
    have hlast' : areRegistersReady (mapSet t.registers k true) = true := by
      rw [hreg]
      exact hlast
    rw [publish_not_ready t E P2 hnott]
    refine ⟨rfl, ?_, ?_, ?_⟩
    · show ((mapSet t.waitForReadyQueue E P2).filter (fun q => q.1 == E)).map
          (fun q => q.2) = [P2]
      rw [hqueue]
      exact filter_mapSet_self _ E P2 (mapSet_keys_nodup _ E P1 hnd)
    · intro c hc
      refine mem_ready_log _ k _ ?_ ?_
      · refine List.mem_flatMap.mpr ⟨(E, P2), ?_, ?_⟩
        · exact mapSet_self_mem _ E P2
        · refine invoked_mem_publishEvent _ E P2 c ?_
          show c ∈ (mapGet t.subscribers E).getD []
          rw [hsubs]
          exact hc
      · exact hlast'
    · intro c p hmem
      have hmem2 := ready_log_subset _ k _ hmem hlast'
      obtain ⟨q', hq', hm'⟩ := List.mem_flatMap.mp hmem2
      obtain ⟨hE, hp⟩ := invoked_of_mem_publishEvent _ q'.1 E q'.2 p c hm'
      have hq'mem : q' ∈ mapSet (mapSet s.waitForReadyQueue E P1) E P2 := by
        rw [← hqueue]
        exact hq'
      have hq'' : q' = (E, P2) := mem_mapSet_key _ E P2 q' hq'mem hE.symm
      rw [hp, hq'']
  rw [publish_not_ready s E P1 hnot]
  refine ⟨rfl, (key _ ?_ ?_ ?_).1, (key _ ?_ ?_ ?_).2.1, (key _ ?_ ?_ ?_).2.2.1,
    (key _ ?_ ?_ ?_).2.2.2⟩ <;> rfl

theorem publish_twice_overwrites_witness :
    areRegistersReady sampleGateClosed.registers = false ∧
    (sampleGateClosed.waitForReadyQueue.map (fun q => q.1)).Nodup ∧
    areRegistersReady (mapSet sampleGateClosed.registers "k" true) = true ∧
    ((publish sampleGateClosed "e" 1).2 = [] ∧
     (publish (publish sampleGateClosed "e" 1).1 "e" 2).2 = [] ∧
     (((publish (publish sampleGateClosed "e" 1).1 "e" 2).1.waitForReadyQueue.filter
         (fun q => q.1 == "e")).map (fun q => q.2)) = [2] ∧
     (∀ c ∈ subscribersOf sampleGateClosed "e",
       LogEntry.invoked "e" c.2.src 2
         ∈ (ready (publish (publish sampleGateClosed "e" 1).1 "e" 2).1 ⟨"k"⟩).2) ∧
     (∀ c p, LogEntry.invoked "e" c p
         ∈ (ready (publish (publish sampleGateClosed "e" 1).1 "e" 2).1 ⟨"k"⟩).2
         → p = 2)) :=
  ⟨by decide, by decide, by decide,
   publish_twice_overwrites sampleGateClosed "e" 1 2 "k"
     (by decide) (by decide) (by decide)⟩

/-- C7: the pending queue keeps each event type at the position of its first
pending write (a later overwrite of an existing type does not reorder the
keys, a first write appends), and the flush emits deliveries in queue order:
for a queue split around two entries, the earlier entry's deliveries appear
in the log before the later entry's deliveries. -/
theorem flush_in_first_write_order (s : DispatcherState) (E : EventType)
    (P : Payload) (k : RegKey)
    (l1 l2 l3 : List (EventType × Payload)) (E1 E2 : EventType)
    (p1 p2 : Payload)
    (hnot : areRegistersReady s.registers = false)
    (hk : areRegistersReady (mapSet s.registers k true) = true)
    (hsplit : s.waitForReadyQueue = l1 ++ (E1, p1) :: l2 ++ (E2, p2) :: l3) :
    ((s.waitForReadyQueue.any (fun q => q.1 == E) = true →
      (publish s E P).1.waitForReadyQueue.map (fun q => q.1)
        = s.waitForReadyQueue.map (fun q => q.1)) ∧
     (s.waitForReadyQueue.any (fun q => q.1 == E) = false →
      (publish s E P).1.waitForReadyQueue.map (fun q => q.1)
        = s.waitForReadyQueue.map (fun q => q.1) ++ [E])) ∧
    (ready s ⟨k⟩).2
      = l1.flatMap (fun q => publishEvent s q.1 q.2)
        ++ publishEvent s E1 p1
        ++ l2.flatMap (fun q => publishEvent s q.1 q.2)
        ++ publishEvent s E2 p2
        ++ l3.flatMap (fun q => publishEvent s q.1 q.2) := by
  refine ⟨⟨?_, ?_⟩, ?_⟩
  · intro hmem
    rw [publish_not_ready s E P hnot]
    exact mapSet_keys_of_mem _ E P hmem
  · intro hmem
    rw [publish_not_ready s E P hnot]
    exact mapSet_keys_of_not_mem _ E P hmem
  · rw [ready_log s k hk, hsplit]
    simp [List.flatMap_append, List.append_assoc]

theorem flush_in_first_write_order_witness :
    areRegistersReady sampleQueued.registers = false ∧
    areRegistersReady (mapSet sampleQueued.registers "k" true) = true ∧
    sampleQueued.waitForReadyQueue
      = [] ++ ("e1", 1) :: [] ++ ("e2", 2) :: [] ∧
    (((sampleQueued.waitForReadyQueue.any (fun q => q.1 == "e1") = true →
       (publish sampleQueued "e1" 9).1.waitForReadyQueue.map (fun q => q.1)
         = sampleQueued.waitForReadyQueue.map (fun q => q.1)) ∧
      (sampleQueued.waitForReadyQueue.any (fun q => q.1 == "e1") = false →
       (publish sampleQueued "e1" 9).1.waitForReadyQueue.map (fun q => q.1)
         = sampleQueued.waitForReadyQueue.map (fun q => q.1) ++ ["e1"])) ∧
     (ready sampleQueued ⟨"k"⟩).2
       = ([] : List (EventType × Payload)).flatMap
           (fun q => publishEvent sampleQueued q.1 q.2)
         ++ publishEvent sampleQueued "e1" 1
         ++ ([] : List (EventType × Payload)).flatMap
           (fun q => publishEvent sampleQueued q.1 q.2)
         ++ publishEvent sampleQueued "e2" 2
         ++ ([] : List (EventType × Payload)).flatMap
           (fun q => publishEvent sampleQueued q.1 q.2)) :=
  ⟨by decide, by decide, by decide,
   flush_in_first_write_order sampleQueued "e1" 9 "k" [] [] [] "e1" "e2" 1 2
     (by decide) (by decide) (by decide)⟩

/-- C8: with the gate ready, a publish invokes subscribers in registration
order: after subscribing two fresh callbacks A then B, the log is the prior
subscribers' output, then the whole of A's invocation, then B's. -/
theorem publish_in_subscription_order (s : DispatcherState) (E : EventType)
    (A B : Callback) (P : Payload)
    (hready : areRegistersReady s.registers = true)
    (hA : (subscribersOf s E).any (fun c => c.1 == A.src) = false)
    (hB : (subscribersOf s E).any (fun c => c.1 == B.src) = false)
    (hAB : (A.src == B.src) = false) :
    (publish (subscribe (subscribe s E A) E B) E P).2
      = (subscribersOf s E).flatMap (fun c => invokeWithCatch E c.2 P)
        ++ invokeWithCatch E A P ++ invokeWithCatch E B P := by
  have hreg : areRegistersReady
      (subscribe (subscribe s E A) E B).registers = true := by
    rw [subscribe_registers, subscribe_registers]
    exact hready
  rw [publish_ready _ E P hreg]
  have h1 : subscribersOf (subscribe s E A) E
      = subscribersOf s E ++ [(A.src, A)] := by
    rw [subscribersOf_subscribe_self]
    unfold mapSet
    rw [if_neg (by rw [hA]; exact Bool.false_ne_true)]
  have h2 : subscribersOf (subscribe (subscribe s E A) E B) E
      = (subscribersOf s E ++ [(A.src, A)]) ++ [(B.src, B)] := by
    rw [subscribersOf_subscribe_self, h1]
    have hfresh : ((subscribersOf s E ++ [(A.src, A)]).any
        (fun p => p.1 == B.src)) = false := by
      rw [List.any_append, hB, Bool.false_or, List.any_cons, List.any_nil,
        Bool.or_false]
      exact hAB
    unfold mapSet
    rw [if_neg (by rw [hfresh]; exact Bool.false_ne_true)]
  unfold publishEvent
  rw [h2]
  simp [List.flatMap_append]

theorem publish_in_subscription_order_witness :
    areRegistersReady sampleGateOpen.registers = true ∧
    (subscribersOf sampleGateOpen "x").any (fun c => c.1 == cbA.src) = false ∧
    (subscribersOf sampleGateOpen "x").any (fun c => c.1 == cbB.src) = false ∧
    (cbA.src == cbB.src) = false ∧
    (publish (subscribe (subscribe sampleGateOpen "x" cbA) "x" cbB) "x" 6).2
      = (subscribersOf sampleGateOpen "x").flatMap
          (fun c => invokeWithCatch "x" c.2 6)
        ++ invokeWithCatch "x" cbA 6 ++ invokeWithCatch "x" cbB 6 :=
  ⟨by decide, by decide, by decide, by decide,
   publish_in_subscription_order sampleGateOpen "x" cbA cbB 6
     (by decide) (by decide) (by decide) (by decide)⟩

/-- C9: subscribe keys callbacks by their stringified source text: adding a
second callback whose source equals an already-subscribed one replaces it
(last-write-wins), adds no duplicate entry, and leaves exactly one entry for
that source. -/
theorem subscribe_same_source_overwrites (s : DispatcherState)
    (E : EventType) (cb1 cb2 : Callback) (hsrc : cb2.src = cb1.src)
    (hnd : ((subscribersOf s E).map (fun c => c.1)).Nodup) :
    mapGet (subscribersOf (subscribe (subscribe s E cb1) E cb2) E) cb1.src
      = some cb2 ∧
    ((subscribersOf (subscribe (subscribe s E cb1) E cb2) E).filter
        (fun c => c.1 == cb1.src)).map (fun c => c.2) = [cb2] ∧
    (subscribersOf (subscribe (subscribe s E cb1) E cb2) E).length
      = (subscribersOf (subscribe s E cb1) E).length := by
  have h1 := subscribersOf_subscribe_self s E cb1
  have h2 := subscribersOf_subscribe_self (subscribe s E cb1) E cb2
  rw [h2, h1, hsrc]
  refine ⟨mapGet_mapSet_self _ _ _, ?_, ?_⟩
  · exact filter_mapSet_self _ _ _ (mapSet_keys_nodup _ _ _ hnd)
  · apply mapSet_length_of_mem
    exact List.any_eq_true.mpr
      ⟨(cb1.src, cb1), mapSet_self_mem _ _ _, by simp⟩

theorem subscribe_same_source_overwrites_witness :
    cbA2.src = cbA.src ∧
    ((subscribersOf sampleGateOpen "e").map (fun c => c.1)).Nodup ∧
    (mapGet (subscribersOf
        (subscribe (subscribe sampleGateOpen "e" cbA) "e" cbA2) "e") cbA.src
      = some cbA2 ∧
     ((subscribersOf
         (subscribe (subscribe sampleGateOpen "e" cbA) "e" cbA2) "e").filter
        (fun c => c.1 == cbA.src)).map (fun c => c.2) = [cbA2] ∧
     (subscribersOf
        (subscribe (subscribe sampleGateOpen "e" cbA) "e" cbA2) "e").length
      = (subscribersOf (subscribe sampleGateOpen "e" cbA) "e").length) :=
  ⟨by decide, by decide,
   subscribe_same_source_overwrites sampleGateOpen "e" cbA cbA2
     (by decide) (by decide)⟩

/-- C10: when ready() opens the gate the whole pending queue is cleared, and a
pending entry whose event type has no subscribers is discarded without any
callback invocation for that type. -/
theorem flush_clears_queue_discards_unsubscribed (s : DispatcherState)
    (k : RegKey)
    (hk : areRegistersReady (mapSet s.registers k true) = true) :
    (ready s ⟨k⟩).1.waitForReadyQueue = [] ∧
    ∀ q ∈ s.waitForReadyQueue, subscribersOf s q.1 = [] →
      ∀ c p, LogEntry.invoked q.1 c p ∉ (ready s ⟨k⟩).2 := by
  refine ⟨ready_queue_empty s k hk, ?_⟩
  intro q hq hsub c p hmem
  rw [ready_log s k hk] at hmem
  obtain ⟨q', hq', hm'⟩ := List.mem_flatMap.mp hmem
  have heq := (invoked_of_mem_publishEvent s q'.1 q.1 q'.2 p c hm').1
  have hsub' : subscribersOf s q'.1 = [] := by
    rw [← heq]
    exact hsub
  unfold publishEvent at hm'
  rw [hsub'] at hm'
  simp at hm'

theorem flush_clears_queue_discards_unsubscribed_witness :
    areRegistersReady (mapSet sampleOrphan.registers "k" true) = true ∧
    ((ready sampleOrphan ⟨"k"⟩).1.waitForReadyQueue = [] ∧
     ∀ q ∈ sampleOrphan.waitForReadyQueue,
       subscribersOf sampleOrphan q.1 = [] →
       ∀ c p, LogEntry.invoked q.1 c p ∉ (ready sampleOrphan ⟨"k"⟩).2) :=
  ⟨by decide,
   flush_clears_queue_discards_unsubscribed sampleOrphan "k" (by decide)⟩

end Hydrogen
